import Mathlib

/-!
Shallow embedding of the listmonk delivery subsystem core:
the campaign status handlers (src/unnamed/part_001) and the SMTP
messenger (src/internal/messenger/emailer.go), with theorems settling
the spec claims about them.
-/

namespace Listmonk

/-- Modelled from the spec: the six campaign status strings.  The string
constants live in the models package, which is not under src/; the spec
(§3, §4.2) fixes the six values draft, scheduled, running, paused,
cancelled, finished. -/
def CampaignStatusDraft : String := "draft"

/-- Modelled from the spec: see `CampaignStatusDraft`. -/
def CampaignStatusScheduled : String := "scheduled"

/-- Modelled from the spec: see `CampaignStatusDraft`. -/
def CampaignStatusRunning : String := "running"

/-- Modelled from the spec: see `CampaignStatusDraft`. -/
def CampaignStatusPaused : String := "paused"

/-- Modelled from the spec: see `CampaignStatusDraft`. -/
def CampaignStatusCancelled : String := "cancelled"

/-- Modelled from the spec: see `CampaignStatusDraft`. -/
def CampaignStatusFinished : String := "finished"

/-- Embeds the errMsg switch of handleUpdateCampaignStatus
(src/unnamed/part_001).  `cur` is the stored campaign status, `req` the
requested status from the request body, `sendAtValid` the stored
campaign's `SendAt.Valid` flag.  Returns true iff the handler sets a
non-empty errMsg.  In the scheduled case the source sets errMsg in two
separate if statements (the second overwrites the first), so errMsg is
non-empty iff either condition holds.  A requested status not matching
any case leaves errMsg empty. -/
def statusChangeRejected (cur req : String) (sendAtValid : Bool) : Bool :=
  if req = CampaignStatusDraft then
    cur != CampaignStatusScheduled
  else if req = CampaignStatusScheduled then
    (cur != CampaignStatusDraft) || (!sendAtValid)
  else if req = CampaignStatusRunning then
    (cur != CampaignStatusPaused) && (cur != CampaignStatusDraft)
  else if req = CampaignStatusPaused then
    cur != CampaignStatusRunning
  else if req = CampaignStatusCancelled then
    (cur != CampaignStatusRunning) && (cur != CampaignStatusPaused)
  else
    false

/-- Outcome of the status handler: an HTTP 400 returned before any
status update is issued, or the call to the store updating the status
to `newStatus`. -/
inductive StatusDecision
  | badRequest
  | update (newStatus : String)
deriving DecidableEq

/-- Embeds the decision structure of handleUpdateCampaignStatus: if
errMsg is non-empty the handler returns HTTP 400 before calling
UpdateCampaignStatus; otherwise it calls UpdateCampaignStatus with the
requested status.  Fetching the campaign, request binding and the
store call itself are external collaborators and are abstracted. -/
def handleUpdateCampaignStatus (cur req : String) (sendAtValid : Bool) : StatusDecision :=
  if statusChangeRejected cur req sendAtValid then .badRequest
  else .update req

/-- The transition pairs the code actually accepts: the rows of the
spec's §4.2 table with the draft→scheduled precondition weakened to a
non-null send_at, together with every request whose target status lies
outside the five explicitly handled values (which falls through the
switch unvalidated). -/
def allowedPairSpec (cur req : String) (sendAtValid : Bool) : Prop :=
  (req = CampaignStatusDraft ∧ cur = CampaignStatusScheduled) ∨
  (req = CampaignStatusScheduled ∧ cur = CampaignStatusDraft ∧ sendAtValid = true) ∨
  (req = CampaignStatusRunning ∧ (cur = CampaignStatusPaused ∨ cur = CampaignStatusDraft)) ∨
  (req = CampaignStatusPaused ∧ cur = CampaignStatusRunning) ∨
  (req = CampaignStatusCancelled ∧ (cur = CampaignStatusRunning ∨ cur = CampaignStatusPaused)) ∨
  (req ≠ CampaignStatusDraft ∧ req ≠ CampaignStatusScheduled ∧ req ≠ CampaignStatusRunning ∧
   req ≠ CampaignStatusPaused ∧ req ≠ CampaignStatusCancelled)

/-- Embeds isCampaignalMutable (src/unnamed/part_001): despite its name,
it returns true exactly when the campaign may NOT be mutated. -/
def isCampaignalMutable (status : String) : Bool :=
  status == CampaignStatusRunning ||
  status == CampaignStatusCancelled ||
  status == CampaignStatusFinished

/-- The content fields handleUpdateCampaign may write.  The concrete
field values are irrelevant to the mutability gate; they are abstracted
into one opaque record. -/
structure CampaignFields where
  name : String
  subject : String
  body : String
deriving DecidableEq

/-- Outcome of handleUpdateCampaign's mutability gate: an HTTP 400
rejection issued before the request is even bound, or proceeding (to
binding, validation and the store update) with the incoming fields.
Validation and persistence beyond the gate are abstracted. -/
inductive UpdateDecision
  | reject
  | proceed (fields : CampaignFields)
deriving DecidableEq

/-- Embeds the mutability gate of handleUpdateCampaign
(src/unnamed/part_001): if isCampaignalMutable(status) the handler
returns HTTP 400 without touching the stored campaign; otherwise it
proceeds with the incoming fields. -/
def handleUpdateCampaign (status : String) (req : CampaignFields) : UpdateDecision :=
  if isCampaignalMutable status then .reject
  else .proceed req

/-- Embeds the rate computation of handleGetRunningCampaignStats
(src/unnamed/part_001).  Timestamps are minutes as rationals; `none`
models a null (invalid) null.Time.  The source computes in float64;
the claims only involve exact small values, modelled here in ℚ.
Rate defaults to 0 (the struct zero value) unless both timestamps are
valid and the elapsed time is positive. -/
def computeRate (sent toSend : ℕ) (startedAt updatedAt : Option ℚ) : ℚ :=
  match startedAt, updatedAt with
  | some s, some u =>
    let diff := u - s
    if 0 < diff then
      let sf : ℚ := sent
      let rate := sf / diff
      if rate > sf ∨ rate > (toSend : ℚ) then sf else rate
    else 0
  | _, _ => 0

/-- The spec's description of the rate (§4.3), written from its words:
absent timestamp → 0; elapsed ≤ 0 → 0; otherwise sent/elapsed, clamped
to sent whenever the quotient exceeds sent or exceeds to_send. -/
def specRate (sent toSend : ℕ) (startedAt updatedAt : Option ℚ) : ℚ :=
  match startedAt, updatedAt with
  | some s, some u =>
    if u - s ≤ 0 then 0
    else if (sent : ℚ) / (u - s) > (sent : ℚ) ∨ (sent : ℚ) / (u - s) > (toSend : ℚ) then
      (sent : ℚ)
    else (sent : ℚ) / (u - s)
  | _, _ => 0

/-- Embeds the Server struct of emailer.go.  Pool sizing/timeout options
of the embedded smtppool.Opt are opaque to every claim and are omitted;
Host is kept because the plain auth and TLS branches read it. -/
structure Server where
  Name : String
  Username : String
  Password : String
  AuthProtocol : String
  EmailFormat : String
  TLSEnabled : Bool
  TLSSkipVerify : Bool
  InjectHeaders : List String
  Host : String
deriving DecidableEq

/-- The concrete authenticator resolved from a server's auth_protocol
(the smtp.Auth value built in NewEmailer's switch). -/
inductive Auth
  | noAuth
  | cram (username password : String)
  | plainAuth (username password host : String)
  | login (username password : String)
deriving DecidableEq

/-- Construction-time errors of NewEmailer.  The source returns
fmt.Errorf("unknown SMTP auth type ...") for an unrecognized
auth_protocol. -/
inductive BuildErr
  | unknownAuth (proto : String)
deriving DecidableEq

/-- Embeds the auth_protocol switch of NewEmailer (emailer.go): cram,
plain and login resolve to concrete authenticators, the empty string to
no auth, and anything else fails construction. -/
def resolveAuth (s : Server) : Except BuildErr Auth :=
  if s.AuthProtocol = "cram" then .ok (.cram s.Username s.Password)
  else if s.AuthProtocol = "plain" then .ok (.plainAuth s.Username s.Password s.Host)
  else if s.AuthProtocol = "login" then .ok (.login s.Username s.Password)
  else if s.AuthProtocol = "" then .ok .noAuth
  else .error (.unknownAuth s.AuthProtocol)

/-- A server as stored in the Emailer after construction: the config,
its resolved authenticator and the identifier of the connection pool
opened for it by smtppool.New. -/
structure PServer where
  srv : Server
  auth : Auth
  poolId : ℕ
deriving DecidableEq

/-- Go map insertion on an association list: overwrite the binding if
the key exists, else append. -/
def mapInsert (m : List (String × PServer)) (k : String) (v : PServer) :
    List (String × PServer) :=
  match m with
  | [] => [(k, v)]
  | (k0, v0) :: rest =>
    if k0 = k then (k, v) :: rest else (k0, v0) :: mapInsert rest k v

/-- Go map lookup on an association list. -/
def mapGet (m : List (String × PServer)) (k : String) : Option PServer :=
  match m with
  | [] => none
  | (k0, v0) :: rest => if k0 = k then some v0 else mapGet rest k

/-- Embeds the Emailer struct of emailer.go: the name → server map, the
ordered name list used for random selection, and the cached count. -/
structure Emailer where
  servers : List (String × PServer)
  serverNames : List String
  numServers : ℕ
deriving DecidableEq

/-- Result of a NewEmailer call together with the resource trace the
claims need: how many connection pools smtppool.New opened during the
attempt and how many of them were closed before returning. -/
structure BuildTrace where
  result : Except BuildErr Emailer
  poolsOpened : ℕ
  poolsClosed : ℕ

/-- The construction loop of NewEmailer (emailer.go): for each server
resolve the auth switch (an unknown auth_protocol returns the error
immediately, with no Close call on pools opened for earlier entries),
then open the entry's connection pool and record the entry.  Pool
creation by the external smtppool library is modelled as succeeding and
numbering pools in creation order.  numServers is set to
len(serverNames) after the loop. -/
def newEmailerLoop (servers : List Server) (acc : Emailer) (opened : ℕ) : BuildTrace :=
  match servers with
  | [] =>
    { result := .ok { acc with numServers := acc.serverNames.length },
      poolsOpened := opened, poolsClosed := 0 }
  | s :: rest =>
    match resolveAuth s with
    | .error e => { result := .error e, poolsOpened := opened, poolsClosed := 0 }
    | .ok a =>
      newEmailerLoop rest
        { servers := mapInsert acc.servers s.Name { srv := s, auth := a, poolId := opened },
          serverNames := acc.serverNames ++ [s.Name],
          numServers := acc.numServers }
        (opened + 1)

/-- Embeds NewEmailer (emailer.go), starting from the empty Emailer. -/
def NewEmailer (servers : List Server) : BuildTrace :=
  newEmailerLoop servers { servers := [], serverNames := [], numServers := 0 } 0

/-- Embeds the messenger.Attachment the caller hands to Push.  The type
is declared elsewhere in the messenger package (not under src/); Push
reads its Name, Header and MIME content bytes, matching the spec's
envelope attachments (name, MIME header, content bytes). -/
structure Attachment where
  Name : String
  Header : List (String × String)
  Content : List ℕ
deriving DecidableEq

/-- Embeds smtppool.Attachment as built by Push: filename, MIME header
and the freshly copied content buffer. -/
structure SPAttachment where
  Filename : String
  Header : List (String × String)
  Content : List ℕ
deriving DecidableEq

/-- Embeds the smtppool.Email built by Push.  HTML and Text are `none`
when the corresponding part is left unset (the Go zero value). -/
structure Email where
  From : String
  To : List String
  Subject : String
  Attachments : List SPAttachment
  Headers : List (String × String)
  HTML : Option (List ℕ)
  Text : Option (List ℕ)
deriving DecidableEq

/-- Go's make([]byte, n): a fresh zeroed buffer of length n. -/
def goMake (n : ℕ) : List ℕ := List.replicate n 0

/-- Go's copy(dst, src): overwrites the first min(len dst, len src)
elements of dst with those of src, leaving dst's length unchanged. -/
def goCopy (dst src : List ℕ) : List ℕ :=
  src.take dst.length ++ dst.drop src.length

/-- The attachment copy performed by Push: make a buffer of exactly the
content's length, then copy the content into it. -/
def copyAttachmentContent (c : List ℕ) : List ℕ :=
  goCopy (goMake c.length) c

/-- Splits a character list at its first colon, mirroring
strings.SplitN(s, ":", 2): `none` when no colon occurs. -/
def breakAtColon : List Char → Option (List Char × List Char)
  | [] => none
  | c :: cs =>
    if c = ':' then some ([], cs)
    else
      match breakAtColon cs with
      | some (k, v) => some (c :: k, v)
      | none => none

/-- A whitespace character as trimmed by strings.TrimSpace (ASCII
subset; the configuration strings in the claims are ASCII). -/
def isSpaceChar (c : Char) : Bool :=
  c = ' ' || c = '\t' || c = '\n' || c = '\r'

/-- Drops leading and trailing whitespace from a character list. -/
def trimChars (cs : List Char) : List Char :=
  ((cs.dropWhile isSpaceChar).reverse.dropWhile isSpaceChar).reverse

/-- Embeds the per-rule body of the header-injection loop in Push
(emailer.go): SplitN on the first colon; the header is added only when
a colon exists and both the key and the raw (untrimmed) value are
non-empty; the added value is TrimSpace of the raw value.  Note the
length test precedes trimming, so a whitespace-only value passes it and
is added as the empty string. -/
def parseInjectRule (rule : String) : Option (String × String) :=
  match breakAtColon rule.data with
  | some (k, v) =>
    if k.length > 0 ∧ v.length > 0 then some (String.mk k, String.mk (trimChars v))
    else none
  | none => none

/-- The header-injection loop of Push: fold over the server's
InjectHeaders in order, appending each accepted rule to the header
list (Headers.Add appends; it never overwrites). -/
def addInjectHeaders (init : List (String × String)) (rules : List String) :
    List (String × String) :=
  rules.foldl
    (fun acc rule =>
      match parseInjectRule rule with
      | some kv => acc ++ [kv]
      | none => acc)
    init

/-- The server-selection step of Push (emailer.go): with more than one
server the key is serverNames[r] where r models the rand.Intn(n) draw;
otherwise serverNames[0].  `none` models the out-of-bounds panic. -/
def selectName (e : Emailer) (r : ℕ) : Option String :=
  if 1 < e.numServers then e.serverNames.get? r else e.serverNames.get? 0

/-- Outcome of a Push: a runtime panic (index out of range, raised
before any message is built or sent), an error returned to the caller,
or the fully built email handed to the selected server's pool. -/
inductive PushResult
  | panicked
  | err (e : String)
  | sent (serverName : String) (em : Email)
deriving DecidableEq

/-- Embeds Push (emailer.go).  `conv` abstracts the external
html2text.FromString call (with its error), `r` the rand.Intn draw.
Steps in source order: select a server name (panicking on an
out-of-bounds index), copy each attachment into a fresh buffer, run the
HTML→text conversion (its failure is returned immediately), look the
server up, build the email with empty headers, append the injection
rules, pick body parts by the EmailFormat switch, and hand the email to
the pool (transmission by the external pool is modelled as receiving
the built email). -/
def Push (e : Emailer) (conv : List ℕ → Except String (List ℕ)) (r : ℕ)
    (fromAddr : String) (toAddr : List String) (subject : String)
    (m : List ℕ) (atts : List Attachment) : PushResult :=
  match selectName e r with
  | none => .panicked
  | some key =>
    let files : List SPAttachment :=
      atts.map (fun f =>
        { Filename := f.Name, Header := f.Header,
          Content := goCopy (goMake f.Content.length) f.Content })
    match conv m with
    | .error msg => .err msg
    | .ok mtext =>
      match mapGet e.servers key with
      | none => .panicked
      | some srv =>
        let em : Email :=
          { From := fromAddr, To := toAddr, Subject := subject,
            Attachments := files,
            Headers := addInjectHeaders [] srv.srv.InjectHeaders,
            HTML := none, Text := none }
        let em2 : Email :=
          if srv.srv.EmailFormat = "html" then { em with HTML := some m }
          else if srv.srv.EmailFormat = "plain" then { em with Text := some mtext }
          else { em with HTML := some m, Text := some mtext }
        .sent key em2

/-- A byte-buffer heap: buffer identifiers below `next` are allocated.
Models Go slice aliasing for the attachment-copy claim. -/
structure BufHeap where
  bufs : ℕ → List ℕ
  next : ℕ

/-- Reads a buffer's bytes. -/
def readBuf (h : BufHeap) (b : ℕ) : List ℕ := h.bufs b

/-- Mutates an existing buffer in place (the caller writing through its
own slice after Push has returned). -/
def writeBuf (h : BufHeap) (b : ℕ) (c : List ℕ) : BufHeap :=
  { bufs := fun i => if i = b then c else h.bufs i, next := h.next }

/-- The attachment copy of Push in the heap model: allocate a fresh
buffer (make) and fill it with a copy of the source buffer's bytes
(copy); returns the new heap and the fresh buffer's identifier. -/
def allocCopy (h : BufHeap) (src : ℕ) : BufHeap × ℕ :=
  ({ bufs := fun i =>
       if i = h.next then copyAttachmentContent (h.bufs src) else h.bufs i,
     next := h.next + 1 }, h.next)

/-- A server's auth_protocol is one of the four values the NewEmailer
switch accepts. -/
def validAuthProto (s : Server) : Bool :=
  s.AuthProtocol == "cram" || s.AuthProtocol == "plain" ||
  s.AuthProtocol == "login" || s.AuthProtocol == ""

theorem resolveAuth_ok_iff (s : Server) :
    (∃ a, resolveAuth s = .ok a) ↔ validAuthProto s = true := by
  unfold resolveAuth validAuthProto
  split_ifs with h1 h2 h3 h4 <;> simp_all

theorem newEmailerLoop_closed (servers : List Server) (acc : Emailer) (opened : ℕ) :
    (newEmailerLoop servers acc opened).poolsClosed = 0 := by
  induction servers generalizing acc opened with
  | nil => rfl
  | cons s rest ih =>
    unfold newEmailerLoop
    cases h : resolveAuth s with
    | error e => rfl
    | ok a => exact ih _ _

theorem newEmailerLoop_opened_of_error (servers : List Server) (acc : Emailer)
    (opened : ℕ) (h : ∃ b, (newEmailerLoop servers acc opened).result = .error b) :
    (newEmailerLoop servers acc opened).poolsOpened =
      opened + (servers.takeWhile validAuthProto).length := by
  induction servers generalizing acc opened with
  | nil => obtain ⟨b, hb⟩ := h; simp [newEmailerLoop] at hb
  | cons s rest ih =>
    unfold newEmailerLoop at h ⊢
    cases hr : resolveAuth s with
    | error e =>
      have hv : validAuthProto s = false := by
        rcases hb : validAuthProto s with _ | _
        · rfl
        · obtain ⟨a, ha⟩ := (resolveAuth_ok_iff s).mpr hb
          rw [ha] at hr; cases hr
      simp [hr, List.takeWhile, hv]
    | ok a =>
      have hv : validAuthProto s = true := (resolveAuth_ok_iff s).mp ⟨a, hr⟩
      rw [hr] at h
      have := ih _ (opened + 1) h
      simp only [List.takeWhile, hv, List.length_cons]
      omega

/-- Second server for the C2 scenario: an unrecognized auth_protocol. -/
def c2srvBad : Server :=
  { Name := "bad", Username := "u", Password := "p", AuthProtocol := "xyz",
    EmailFormat := "", TLSEnabled := false, TLSSkipVerify := false,
    InjectHeaders := [], Host := "h2" }

/-- First server for the C2 scenario: a valid entry whose pool gets
opened before the second entry fails. -/
def c2srvOk : Server :=
  { Name := "ok", Username := "u", Password := "p", AuthProtocol := "",
    EmailFormat := "", TLSEnabled := false, TLSSkipVerify := false,
    InjectHeaders := [], Host := "h1" }

/-- C2, counterexample: with a valid first entry and a second entry
whose auth_protocol is unrecognized, NewEmailer fails with the
unknown-auth error, but the pool opened for the first entry is never
closed — one live pool remains, contradicting the claim that zero live
pools remain open when construction fails. -/
theorem claim2_counterexample :
    (NewEmailer [c2srvOk, c2srvBad]).result = .error (.unknownAuth "xyz") ∧
    (NewEmailer [c2srvOk, c2srvBad]).poolsOpened = 1 ∧
    (NewEmailer [c2srvOk, c2srvBad]).poolsClosed = 0 ∧
    (NewEmailer [c2srvOk, c2srvBad]).poolsOpened -
      (NewEmailer [c2srvOk, c2srvBad]).poolsClosed ≠ 0 :=
  ⟨rfl, rfl, rfl, by decide⟩

/-- C2, amended: when any entry fails during construction, NewEmailer
returns the error with no Messenger, but no pool is ever closed during
construction, and every pool opened for the valid entries preceding the
first failing one remains open (they are leaked, not closed before the
error is returned). -/
theorem claim2_amended (servers : List Server)
    (h : ∃ b, (NewEmailer servers).result = .error b) :
    (NewEmailer servers).poolsClosed = 0 ∧
    (NewEmailer servers).poolsOpened =
      (servers.takeWhile validAuthProto).length := by
  refine ⟨newEmailerLoop_closed _ _ _, ?_⟩
  have := newEmailerLoop_opened_of_error servers
    { servers := [], serverNames := [], numServers := 0 } 0 h
  simpa [NewEmailer] using this

/-- C2, witness: the amended theorem applied to the two-server scenario:
construction fails, zero pools were closed, and exactly one pool (the
first entry's) was opened and remains. -/
theorem claim2_witness :
    (∃ b, (NewEmailer [c2srvOk, c2srvBad]).result = .error b) ∧
    (NewEmailer [c2srvOk, c2srvBad]).poolsClosed = 0 ∧
    (NewEmailer [c2srvOk, c2srvBad]).poolsOpened =
      (([c2srvOk, c2srvBad]).takeWhile validAuthProto).length :=
  ⟨⟨.unknownAuth "xyz", rfl⟩, claim2_amended [c2srvOk, c2srvBad] ⟨.unknownAuth "xyz", rfl⟩⟩

/-- C10: NewEmailer called with no servers succeeds (the at-least-one
precondition is unchecked), producing the Emailer with zero servers and
opening no pool; and every Push on it panics at the server-selection
step — serverNames[0] on the empty name list — before any message is
built or sent (the panicked outcome carries no built email and no
pool hand-off). -/
theorem claim10_empty_construction :
    (NewEmailer []).result = .ok { servers := [], serverNames := [], numServers := 0 } ∧
    (NewEmailer []).poolsOpened = 0 ∧
    (∀ (conv : List ℕ → Except String (List ℕ)) (r : ℕ) (fromAddr : String)
       (toAddr : List String) (subject : String) (m : List ℕ) (atts : List Attachment),
       Push { servers := [], serverNames := [], numServers := 0 }
         conv r fromAddr toAddr subject m atts = .panicked) := by
  refine ⟨rfl, rfl, ?_⟩
  intro conv r fromAddr toAddr subject m atts
  simp [Push, selectName]

theorem copyAttachmentContent_eq (c : List ℕ) : copyAttachmentContent c = c := by
  simp [copyAttachmentContent, goCopy, goMake, List.drop_replicate]

theorem copyAttachmentContent_length (c : List ℕ) :
    (copyAttachmentContent c).length = c.length := by
  rw [copyAttachmentContent_eq]

theorem addInjectHeaders_eq (init : List (String × String)) (rules : List String) :
    addInjectHeaders init rules = init ++ rules.filterMap parseInjectRule := by
  induction rules generalizing init with
  | nil => simp [addInjectHeaders]
  | cons rule rest ih =>
    cases h : parseInjectRule rule with
    | none =>
      have hstep : addInjectHeaders init (rule :: rest) = addInjectHeaders init rest := by
        simp [addInjectHeaders, h]
      rw [hstep, ih]
      simp [List.filterMap_cons, h]
    | some kv =>
      have hstep : addInjectHeaders init (rule :: rest) =
          addInjectHeaders (init ++ [kv]) rest := by
        simp [addInjectHeaders, h]
      rw [hstep, ih]
      simp [List.filterMap_cons, h]

/-- C7: when a Push reaches the build step (a server is selected and
the HTML→text conversion succeeds), the body parts of the sent email
are determined solely by the selected entry's EmailFormat: "html"
yields the HTML body and no text part, "plain" yields only the derived
plain text and no HTML part, and any other value — including the empty
default meaning both — yields both parts. -/
theorem claim7_format_policy (e : Emailer) (conv : List ℕ → Except String (List ℕ))
    (r : ℕ) (fromAddr : String) (toAddr : List String) (subject : String)
    (m : List ℕ) (atts : List Attachment) (key : String) (srv : PServer)
    (mtext : List ℕ)
    (hsel : selectName e r = some key)
    (hget : mapGet e.servers key = some srv)
    (hconv : conv m = .ok mtext) :
    ∃ em : Email, Push e conv r fromAddr toAddr subject m atts = .sent key em ∧
      (srv.srv.EmailFormat = "html" → em.HTML = some m ∧ em.Text = none) ∧
      (srv.srv.EmailFormat = "plain" → em.HTML = none ∧ em.Text = some mtext) ∧
      (srv.srv.EmailFormat ≠ "html" → srv.srv.EmailFormat ≠ "plain" →
        em.HTML = some m ∧ em.Text = some mtext) := by
  simp only [Push, hsel, hconv, hget]
  by_cases h1 : srv.srv.EmailFormat = "html"
  · simp only [if_pos h1]
    exact ⟨_, rfl, fun _ => ⟨rfl, rfl⟩,
      fun h => absurd (h1.symm.trans h) (by decide), fun hne _ => absurd h1 hne⟩
  · by_cases h2 : srv.srv.EmailFormat = "plain"
    · simp only [if_neg h1, if_pos h2]
      exact ⟨_, rfl, fun h => absurd h h1, fun _ => ⟨rfl, rfl⟩,
        fun _ hne => absurd h2 hne⟩
    · simp only [if_neg h1, if_neg h2]
      exact ⟨_, rfl, fun h => absurd h h1, fun h => absurd h h2,
        fun _ _ => ⟨rfl, rfl⟩⟩

/-- The single-server messenger used to witness C7: its entry's
email_format is "plain". -/
def c7emailer : Emailer :=
  { servers := [("s7",
      { srv := { Name := "s7", Username := "u", Password := "p", AuthProtocol := "",
                 EmailFormat := "plain", TLSEnabled := false, TLSSkipVerify := false,
                 InjectHeaders := [], Host := "h" },
        auth := .noAuth, poolId := 0 })],
    serverNames := ["s7"], numServers := 1 }

/-- C7, witness: the format-policy theorem applied to a concrete
single-server messenger with email_format "plain" and a conversion
returning an empty text body. -/
theorem claim7_witness :
    (selectName c7emailer 0 = some "s7" ∧
     mapGet c7emailer.servers "s7" =
       some { srv := { Name := "s7", Username := "u", Password := "p", AuthProtocol := "",
                       EmailFormat := "plain", TLSEnabled := false, TLSSkipVerify := false,
                       InjectHeaders := [], Host := "h" },
              auth := .noAuth, poolId := 0 } ∧
     (fun (_ : List ℕ) => (Except.ok [] : Except String (List ℕ))) [7] = .ok []) ∧
    ∃ em : Email,
      Push c7emailer (fun _ => .ok []) 0 "from" ["to"] "sub" [7] [] = .sent "s7" em ∧
      (("plain" : String) = "html" → em.HTML = some [7] ∧ em.Text = none) ∧
      (("plain" : String) = "plain" → em.HTML = none ∧ em.Text = some []) ∧
      (("plain" : String) ≠ "html" → ("plain" : String) ≠ "plain" →
        em.HTML = some [7] ∧ em.Text = some []) :=
  ⟨⟨rfl, rfl, rfl⟩,
    claim7_format_policy c7emailer (fun _ => .ok []) 0 "from" ["to"] "sub" [7] []
      "s7" _ [] rfl rfl rfl⟩

/-- The single-server messenger used for C5: its entry's email_format
is "html", the one format for which the claim says no HTML→text
conversion is performed. -/
def c5emailer : Emailer :=
  { servers := [("s5",
      { srv := { Name := "s5", Username := "u", Password := "p", AuthProtocol := "",
                 EmailFormat := "html", TLSEnabled := false, TLSSkipVerify := false,
                 InjectHeaders := [], Host := "h" },
        auth := .noAuth, poolId := 0 })],
    serverNames := ["s5"], numServers := 1 }

/-- C5, counterexample: the claim says the HTML→text conversion is
performed only when plain text is required by the entry's format policy
(not for "html").  But Push runs the conversion unconditionally before
the format switch: on an entry with email_format "html", a failing
converter aborts the send with its error, and a succeeding converter
lets the same send go through — the outcome under the "html" policy
depends on the converter, so the conversion is performed. -/
theorem claim5_counterexample :
    Push c5emailer (fun _ => .error "boom") 0 "from" ["to"] "sub" [7] [] =
      .err "boom" ∧
    Push c5emailer (fun _ => .ok []) 0 "from" ["to"] "sub" [7] [] =
      .sent "s5"
        { From := "from", To := ["to"], Subject := "sub", Attachments := [],
          Headers := [], HTML := some [7], Text := none } :=
  ⟨rfl, rfl⟩

/-- C5, amended: the HTML→text conversion is performed on every Push
regardless of the entry's format policy (it runs before the format
switch), and when it fails the send aborts with the conversion error
returned verbatim to the caller — never silently swallowed.  Each Push
is a pure function of its own arguments, so the failure affects no
other send. -/
theorem claim5_amended (e : Emailer) (conv : List ℕ → Except String (List ℕ))
    (r : ℕ) (fromAddr : String) (toAddr : List String) (subject : String)
    (m : List ℕ) (atts : List Attachment) (key : String) (msg : String)
    (hsel : selectName e r = some key)
    (hconv : conv m = .error msg) :
    Push e conv r fromAddr toAddr subject m atts = .err msg := by
  simp only [Push, hsel, hconv]

/-- C5, witness: the amended theorem applied to the "html"-format
messenger and a converter failing with "boom". -/
theorem claim5_witness :
    (selectName c5emailer 0 = some "s5" ∧
     (fun (_ : List ℕ) => (Except.error "boom" : Except String (List ℕ))) [7] =
       .error "boom") ∧
    Push c5emailer (fun _ => .error "boom") 0 "from" ["to"] "sub" [7] [] =
      .err "boom" :=
  ⟨⟨rfl, rfl⟩,
    claim5_amended c5emailer (fun _ => .error "boom") 0 "from" ["to"] "sub" [7] []
      "s5" "boom" rfl rfl⟩

/-- The single-server messenger used for C4: one injection rule whose
value is three spaces — non-empty before trimming, empty after. -/
def c4emailer : Emailer :=
  { servers := [("s4",
      { srv := { Name := "s4", Username := "u", Password := "p", AuthProtocol := "",
                 EmailFormat := "", TLSEnabled := false, TLSSkipVerify := false,
                 InjectHeaders := ["X-Test:   "], Host := "h" },
        auth := .noAuth, poolId := 0 })],
    serverNames := ["s4"], numServers := 1 }

/-- C4, counterexample: the claim says a rule that is empty after
trimming is silently skipped and never appears in the sent headers.
But the length check in Push precedes trimming: the rule whose value is
only spaces passes the check and is added with its value trimmed to the
empty string, so the sent message carries the header ("X-Test", ""). -/
theorem claim4_counterexample :
    Push c4emailer (fun _ => .ok []) 0 "from" ["to"] "sub" [] [] =
      .sent "s4"
        { From := "from", To := ["to"], Subject := "sub", Attachments := [],
          Headers := [("X-Test", "")], HTML := some [], Text := some [] } ∧
    parseInjectRule "X-Test:   " = some ("X-Test", "") :=
  ⟨rfl, rfl⟩

/-- C4, amended: Push takes no caller-supplied headers — the header set
starts empty and consists exactly of the entry's injection rules in
order, each split on its first colon; a rule with no colon, an empty
key, or an empty value before trimming is silently skipped; an accepted
rule's value is trimmed after the check, so a whitespace-only value is
added as the empty string rather than skipped.  Headers are appended
(Headers.Add), never overwritten, so duplicate keys all appear. -/
theorem claim4_amended (e : Emailer) (conv : List ℕ → Except String (List ℕ))
    (r : ℕ) (fromAddr : String) (toAddr : List String) (subject : String)
    (m : List ℕ) (atts : List Attachment) (key : String) (srv : PServer)
    (mtext : List ℕ)
    (hsel : selectName e r = some key)
    (hget : mapGet e.servers key = some srv)
    (hconv : conv m = .ok mtext) :
    (∃ em : Email, Push e conv r fromAddr toAddr subject m atts = .sent key em ∧
      em.Headers = srv.srv.InjectHeaders.filterMap parseInjectRule) ∧
    (∀ rule : String, breakAtColon rule.data = none → parseInjectRule rule = none) ∧
    (∀ (rule : String) (k v : List Char), breakAtColon rule.data = some (k, v) →
      (k.length = 0 ∨ v.length = 0) → parseInjectRule rule = none) ∧
    (∀ (rule : String) (k v : List Char), breakAtColon rule.data = some (k, v) →
      0 < k.length → 0 < v.length →
      parseInjectRule rule = some (String.mk k, String.mk (trimChars v))) := by
  refine ⟨?_, ?_, ?_, ?_⟩
  · simp only [Push, hsel, hconv, hget]
    refine ⟨_, rfl, ?_⟩
    split_ifs <;> simpa using addInjectHeaders_eq [] srv.srv.InjectHeaders
  · intro rule h
    simp [parseInjectRule, h]
  · intro rule k v h hz
    rcases hz with hz | hz <;> simp [parseInjectRule, h, hz]
  · intro rule k v h hk hv
    simp only [parseInjectRule, h]
    rw [if_pos ⟨hk, hv⟩]

/-- C4, witness: the amended theorem applied to the messenger whose one
injection rule has a whitespace-only value. -/
theorem claim4_witness :
    (selectName c4emailer 0 = some "s4" ∧
     (fun (_ : List ℕ) => (Except.ok [] : Except String (List ℕ))) [] = .ok []) ∧
    (∃ em : Email, Push c4emailer (fun _ => .ok []) 0 "from" ["to"] "sub" [] [] =
        .sent "s4" em ∧
      em.Headers = (["X-Test:   "] : List String).filterMap parseInjectRule) :=
  ⟨⟨rfl, rfl⟩,
    ((claim4_amended c4emailer (fun _ => .ok []) 0 "from" ["to"] "sub" [] []
      "s4" _ [] rfl rfl rfl).1)⟩

/-- The single-server messenger used to witness C8. -/
def c8emailer : Emailer :=
  { servers := [("s8",
      { srv := { Name := "s8", Username := "u", Password := "p", AuthProtocol := "",
                 EmailFormat := "", TLSEnabled := false, TLSSkipVerify := false,
                 InjectHeaders := [], Host := "h" },
        auth := .noAuth, poolId := 0 })],
    serverNames := ["s8"], numServers := 1 }

/-- The concrete attachment used to witness C8. -/
def c8att : Attachment :=
  { Name := "file.bin", Header := [("Content-Type", "application/x-bin")],
    Content := [1, 2, 3] }

/-- An attachment in the buffer-heap model: the identifier of the
caller's MIME-header buffer and of the caller's content buffer. -/
structure HeapAttachment where
  headerBuf : ℕ
  contentBuf : ℕ
deriving DecidableEq

/-- The per-attachment build of Push in the heap model (emailer.go,
the atts loop): the content goes through make+copy — a fresh buffer —
while the Header field is stored as-is, keeping the caller's header
buffer. -/
def buildHeapAttachment (h : BufHeap) (f : HeapAttachment) : BufHeap × HeapAttachment :=
  let p := allocCopy h f.contentBuf
  (p.1, { headerBuf := f.headerBuf, contentBuf := p.2 })

/-- The message hand-off of Push in the heap model: each attachment's
content is copied into a fresh buffer (make+copy) with its header
buffer stored as-is, and the HTML body is stored as `em.HTML = m` —
the caller's slice itself, with no copy.  Returns the heap after the
copies, the body buffer handed to the pool, and the attachment buffers
handed to the pool. -/
def heapHandOff (h : BufHeap) (mBuf : ℕ) (atts : List HeapAttachment) :
    BufHeap × ℕ × List HeapAttachment :=
  let r := atts.foldl
    (fun (acc : BufHeap × List HeapAttachment) f =>
      let p := buildHeapAttachment acc.1 f
      (p.1, acc.2 ++ [p.2]))
    (h, [])
  (r.1, mBuf, r.2)

/-- The concrete one-buffer heap used for the C8 counterexample: buffer
0 is the caller's HTML body, holding the bytes [1, 2, 3]. -/
def c8heap : BufHeap :=
  { bufs := fun i => if i = 0 then [1, 2, 3] else [], next := 1 }

/-- C8, counterexample: the claim says no part of the message handed to
the transport aliases caller-owned memory, so mutating the caller's
data after Push cannot alter the sent message.  But Push stores the
caller's body slice itself into the outgoing email (em.HTML = m — no
copy), so in the heap model of the hand-off the transport's body buffer
IS the caller's buffer 0: after Push returns, overwriting the caller's
buffer with [9] changes what the transport reads from [1, 2, 3] to
[9]. -/
theorem claim8_counterexample :
    (heapHandOff c8heap 0 []).2.1 = 0 ∧
    readBuf c8heap 0 = [1, 2, 3] ∧
    readBuf (writeBuf (heapHandOff c8heap 0 []).1 0 [9])
      (heapHandOff c8heap 0 []).2.1 = [9] ∧
    ([9] : List ℕ) ≠ [1, 2, 3] :=
  ⟨rfl, rfl, rfl, by decide⟩

/-- C8, amended: on a Push that reaches the pool hand-off, every
attachment's content is copied into a freshly allocated buffer of
exactly the content's length whose bytes equal the caller's bytes at
Push time, with filename and MIME header preserved verbatim, so
mutating the caller's attachment content after Push cannot alter the
transported attachment content; but the message is not alias-free: the
attachment's MIME-header buffer is stored as-is, and the HTML body
handed to the transport is the caller's own buffer, so mutating the
caller's body buffer after Push does alter what the transport reads. -/
theorem claim8_amended (e : Emailer) (conv : List ℕ → Except String (List ℕ))
    (r : ℕ) (fromAddr : String) (toAddr : List String) (subject : String)
    (m : List ℕ) (atts : List Attachment) (key : String) (srv : PServer)
    (mtext : List ℕ)
    (hsel : selectName e r = some key)
    (hget : mapGet e.servers key = some srv)
    (hconv : conv m = .ok mtext) :
    (∃ em : Email, Push e conv r fromAddr toAddr subject m atts = .sent key em ∧
      em.Attachments = atts.map (fun f =>
        { Filename := f.Name, Header := f.Header, Content := f.Content }) ∧
      ∀ f : Attachment,
        (goCopy (goMake f.Content.length) f.Content).length = f.Content.length ∧
        goCopy (goMake f.Content.length) f.Content = f.Content) ∧
    (∀ (h : BufHeap) (b : ℕ) (mutated : List ℕ), b < h.next →
      readBuf (writeBuf (allocCopy h b).1 b mutated) (allocCopy h b).2 =
        readBuf h b) ∧
    (∀ (h : BufHeap) (f : HeapAttachment),
      (buildHeapAttachment h f).2.headerBuf = f.headerBuf) ∧
    (∀ (h : BufHeap) (mBuf : ℕ) (hatts : List HeapAttachment),
      (heapHandOff h mBuf hatts).2.1 = mBuf) ∧
    (∀ (h : BufHeap) (mBuf : ℕ) (hatts : List HeapAttachment) (mutated : List ℕ),
      readBuf (writeBuf (heapHandOff h mBuf hatts).1 mBuf mutated)
        (heapHandOff h mBuf hatts).2.1 = mutated) := by
  have hfun : (fun f : Attachment =>
      ({ Filename := f.Name, Header := f.Header,
         Content := goCopy (goMake f.Content.length) f.Content } : SPAttachment)) =
      (fun f : Attachment =>
      ({ Filename := f.Name, Header := f.Header, Content := f.Content } : SPAttachment)) := by
    funext f
    rw [show goCopy (goMake f.Content.length) f.Content = f.Content from
      copyAttachmentContent_eq f.Content]
  refine ⟨?_, ?_, ?_, ?_, ?_⟩
  · simp only [Push, hsel, hconv, hget]
    refine ⟨_, rfl, ?_, ?_⟩
    · split_ifs <;> simp only [hfun]
    · intro f
      exact ⟨copyAttachmentContent_length f.Content, copyAttachmentContent_eq f.Content⟩
  · intro h b mutated hb
    have hne : h.next ≠ b := by omega
    simp [readBuf, writeBuf, allocCopy, hne, copyAttachmentContent_eq]
  · intro h f
    rfl
  · intro h mBuf hatts
    rfl
  · intro h mBuf hatts mutated
    have hb : (heapHandOff h mBuf hatts).2.1 = mBuf := rfl
    simp [readBuf, writeBuf, hb]

/-- C8, witness: the amended theorem applied to a concrete messenger
and a concrete three-byte attachment. -/
theorem claim8_witness :
    (selectName c8emailer 0 = some "s8" ∧
     (fun (_ : List ℕ) => (Except.ok [] : Except String (List ℕ))) [] = .ok []) ∧
    (∃ em : Email,
      Push c8emailer (fun _ => .ok []) 0 "from" ["to"] "sub" [] [c8att] =
        .sent "s8" em ∧
      em.Attachments = [c8att].map (fun f =>
        { Filename := f.Name, Header := f.Header, Content := f.Content }) ∧
      ∀ f : Attachment,
        (goCopy (goMake f.Content.length) f.Content).length = f.Content.length ∧
        goCopy (goMake f.Content.length) f.Content = f.Content) ∧
    (∀ (h : BufHeap) (b : ℕ) (mutated : List ℕ), b < h.next →
      readBuf (writeBuf (allocCopy h b).1 b mutated) (allocCopy h b).2 =
        readBuf h b) ∧
    (∀ (h : BufHeap) (f : HeapAttachment),
      (buildHeapAttachment h f).2.headerBuf = f.headerBuf) ∧
    (∀ (h : BufHeap) (mBuf : ℕ) (hatts : List HeapAttachment),
      (heapHandOff h mBuf hatts).2.1 = mBuf) ∧
    (∀ (h : BufHeap) (mBuf : ℕ) (hatts : List HeapAttachment) (mutated : List ℕ),
      readBuf (writeBuf (heapHandOff h mBuf hatts).1 mBuf mutated)
        (heapHandOff h mBuf hatts).2.1 = mutated) :=
  ⟨⟨rfl, rfl⟩,
    claim8_amended c8emailer (fun _ => .ok []) 0 "from" ["to"] "sub" []
      [c8att] "s8" _ [] rfl rfl rfl⟩

/-- The index of the entry a Push draw selects: the rand.Intn draw `r`
itself when more than one server exists, index 0 otherwise. -/
def selectIdx (e : Emailer) (r : ℕ) : ℕ :=
  if 1 < e.numServers then r else 0

theorem newEmailerLoop_ok (servers : List Server) (acc : Emailer) (opened : ℕ)
    (e : Emailer) (h : (newEmailerLoop servers acc opened).result = .ok e) :
    e.serverNames = acc.serverNames ++ servers.map Server.Name ∧
    e.numServers = e.serverNames.length := by
  induction servers generalizing acc opened with
  | nil =>
    simp only [newEmailerLoop] at h
    injection h with h2
    rw [← h2]
    simp
  | cons s rest ih =>
    unfold newEmailerLoop at h
    cases hr : resolveAuth s with
    | error b => rw [hr] at h; cases h
    | ok a =>
      rw [hr] at h
      have hrec := ih _ (opened + 1) h
      simpa using hrec

/-- C9: a Messenger built by NewEmailer from at least one server holds
at least one entry; the server-selection step of Push picks the entry
at index `selectIdx` of the name list; with exactly one entry that
entry is always selected, for every random draw; and with more than one
entry each entry index below numServers is selected by exactly one draw
value in the rand.Intn range — selection is uniform over entries when
the draw is uniform, unweighted by pool health or load. -/
theorem claim9_selection (servers : List Server) (e : Emailer)
    (hok : (NewEmailer servers).result = .ok e) (hne : servers ≠ []) :
    0 < e.numServers ∧
    (∀ r, selectName e r = e.serverNames.get? (selectIdx e r)) ∧
    (e.numServers = 1 → ∃ nm, e.serverNames = [nm] ∧ ∀ r, selectName e r = some nm) ∧
    (1 < e.numServers → ∀ i, i < e.numServers →
      ((Finset.range e.numServers).filter (fun r => selectIdx e r = i)).card = 1) := by
  obtain ⟨hnames, hnum⟩ := newEmailerLoop_ok servers _ 0 e hok
  simp only [List.nil_append] at hnames
  refine ⟨?_, ?_, ?_, ?_⟩
  · rw [hnum, hnames, List.length_map]
    exact List.length_pos.mpr hne
  · intro r
    unfold selectName selectIdx
    by_cases h : 1 < e.numServers <;> simp [h]
  · intro h1
    have hlen : e.serverNames.length = 1 := by omega
    obtain ⟨nm, hnm⟩ := List.length_eq_one.mp hlen
    refine ⟨nm, hnm, fun r => ?_⟩
    unfold selectName
    rw [if_neg (by omega), hnm]
    rfl
  · intro h1 i hi
    have : ((Finset.range e.numServers).filter (fun r => selectIdx e r = i)) =
        ((Finset.range e.numServers).filter (fun r => r = i)) := by
      apply Finset.filter_congr
      intro r _
      simp [selectIdx, h1]
    rw [this, Finset.filter_eq']
    simp [Finset.mem_range.mpr hi]

/-- First server of the two-server messenger witnessing C9. -/
def c9srv1 : Server :=
  { Name := "n1", Username := "u", Password := "p", AuthProtocol := "",
    EmailFormat := "", TLSEnabled := false, TLSSkipVerify := false,
    InjectHeaders := [], Host := "h1" }

/-- Second server of the two-server messenger witnessing C9. -/
def c9srv2 : Server :=
  { Name := "n2", Username := "u", Password := "p", AuthProtocol := "",
    EmailFormat := "", TLSEnabled := false, TLSSkipVerify := false,
    InjectHeaders := [], Host := "h2" }

/-- The Emailer NewEmailer builds from the two C9 servers. -/
def c9emailer : Emailer :=
  { servers := [("n1", { srv := c9srv1, auth := .noAuth, poolId := 0 }),
                ("n2", { srv := c9srv2, auth := .noAuth, poolId := 1 })],
    serverNames := ["n1", "n2"], numServers := 2 }

/-- C9, witness: the selection theorem applied to the concrete
two-server messenger. -/
theorem claim9_witness :
    ((NewEmailer [c9srv1, c9srv2]).result = .ok c9emailer ∧ [c9srv1, c9srv2] ≠ []) ∧
    0 < c9emailer.numServers ∧
    (∀ r, selectName c9emailer r = c9emailer.serverNames.get? (selectIdx c9emailer r)) ∧
    (c9emailer.numServers = 1 →
      ∃ nm, c9emailer.serverNames = [nm] ∧ ∀ r, selectName c9emailer r = some nm) ∧
    (1 < c9emailer.numServers → ∀ i, i < c9emailer.numServers →
      ((Finset.range c9emailer.numServers).filter
        (fun r => selectIdx c9emailer r = i)).card = 1) :=
  ⟨⟨rfl, by simp⟩, claim9_selection [c9srv1, c9srv2] c9emailer rfl (by simp)⟩

/-- C1, counterexample: the claim says any request targeting `finished`
fails with an invalid-transition error and HTTP 400 before any status
update is issued; but the errMsg switch has no case for `finished`, so
a running campaign asked to become finished passes validation and the
handler proceeds to issue the status update. -/
theorem claim1_counterexample :
    handleUpdateCampaignStatus Listmonk.CampaignStatusRunning
      Listmonk.CampaignStatusFinished true =
      StatusDecision.update Listmonk.CampaignStatusFinished ∧
    handleUpdateCampaignStatus Listmonk.CampaignStatusRunning
      Listmonk.CampaignStatusFinished true ≠ StatusDecision.badRequest := by
  constructor <;> decide

/-- C1, amended: the handler updates the status exactly when the
(current, requested) pair is a row of the §4.2 table with the
draft→scheduled precondition weakened to a non-null send_at (not
checked to be in the future), or when the requested status lies outside
the five handled values {draft, scheduled, running, paused, cancelled}
— including `finished` and arbitrary strings — which pass through
unvalidated; every other request fails with HTTP 400 before any status
update is issued. -/
theorem claim1_amended (cur req : String) (v : Bool) :
    (handleUpdateCampaignStatus cur req v = StatusDecision.update req ↔
      allowedPairSpec cur req v) ∧
    (handleUpdateCampaignStatus cur req v = StatusDecision.badRequest ↔
      ¬ allowedPairSpec cur req v) := by
  have hup : ∀ s : String, StatusDecision.update s ≠ StatusDecision.badRequest := by
    intro s h; cases h
  unfold handleUpdateCampaignStatus statusChangeRejected allowedPairSpec
  unfold CampaignStatusDraft CampaignStatusScheduled CampaignStatusRunning
    CampaignStatusPaused CampaignStatusCancelled
  by_cases h1 : req = "draft" <;>
    by_cases h2 : req = "scheduled" <;>
      by_cases h3 : req = "running" <;>
        by_cases h4 : req = "paused" <;>
          by_cases h5 : req = "cancelled" <;>
            simp_all <;>
              by_cases hv : v = true <;>
                by_cases c1 : cur = "draft" <;>
                  by_cases c2 : cur = "scheduled" <;>
                    by_cases c3 : cur = "running" <;>
                      by_cases c4 : cur = "paused" <;>
                        simp_all

/-- C3: for every campaign whose status is running, cancelled or
finished, the handleUpdateCampaign mutability gate rejects with an
error before any field of the stored campaign is touched, regardless of
which fields the request carries; for any other status the gate does
not reject. -/
theorem claim3_mutability_gate (status : String) (req : CampaignFields) :
    (handleUpdateCampaign status req = UpdateDecision.reject ↔
      (status = CampaignStatusRunning ∨ status = CampaignStatusCancelled ∨
       status = CampaignStatusFinished)) ∧
    (handleUpdateCampaign status req ≠ UpdateDecision.reject →
      handleUpdateCampaign status req = UpdateDecision.proceed req) := by
  constructor
  · unfold handleUpdateCampaign isCampaignalMutable
    by_cases h1 : status = CampaignStatusRunning <;>
      by_cases h2 : status = CampaignStatusCancelled <;>
        by_cases h3 : status = CampaignStatusFinished <;>
          simp_all
  · intro h
    unfold handleUpdateCampaign at h ⊢
    by_cases hm : isCampaignalMutable status = true <;> simp_all

/-- C6: the computed rate agrees everywhere with the spec's description
(absent timestamp → 0, elapsed ≤ 0 → 0, otherwise sent/elapsed clamped
to sent when the quotient exceeds sent or to_send), and on the three
spec examples: sent=100, to_send=100, elapsed 10 min gives 10;
updated_at = started_at gives 0; sent=5, to_send=10, elapsed 0.1 min
gives 5 (clamped from 50). -/
theorem claim6_rate :
    (∀ (sent toSend : ℕ) (startedAt updatedAt : Option ℚ),
      computeRate sent toSend startedAt updatedAt =
        specRate sent toSend startedAt updatedAt) ∧
    computeRate 100 100 (some 0) (some 10) = 10 ∧
    (∀ (sent toSend : ℕ) (t : ℚ), computeRate sent toSend (some t) (some t) = 0) ∧
    computeRate 5 10 (some 0) (some (1/10)) = 5 := by
  refine ⟨?_, ?_, ?_, ?_⟩
  · intro sent toSend startedAt updatedAt
    match startedAt, updatedAt with
    | none, none => rfl
    | none, some u => rfl
    | some s, none => rfl
    | some s, some u =>
      simp only [computeRate, specRate]
      rcases lt_or_le 0 (u - s) with hd | hd
      · rw [if_pos hd, if_neg (not_le.mpr hd)]
      · rw [if_neg (not_lt.mpr hd), if_pos hd]
  · norm_num [computeRate]
  · intro sent toSend t
    simp [computeRate]
  · norm_num [computeRate]

end Listmonk
